import Mathlib

/-!
Verification of the virtual contest manager
(`sql-client/src/internal/virtual_contest_manager.rs`).

The manager is a set of SQL-backed operations over four tables.  We embed
the database as an explicit `Db` state (one list of rows per table) and
each operation as a pure function on `Db`.  SQL semantics are modelled
faithfully for a PostgreSQL backend (the Rust code runs on `PgPool`):

* `ORDER BY col ASC` sorts with NULLs *last* (the PostgreSQL default for
  ascending order); we realise NULL-able sort keys as `WithTop` values.
* `fetch_one` returning no row is an error; we model it with `Option`.
* `sqlx` statement failures and the surrounding transaction are modelled
  with an explicit failure oracle: every statement of `update_items` may
  fail, and a failure inside the transaction returns the original state
  (rollback).
-/

namespace VCM

/-- Row of `internal_virtual_contests` (struct `VirtualContestInfo`);
the `internal_user_id` column is exposed as `owner_user_id`. -/
structure VirtualContestInfo where
  id : String
  title : String
  memo : String
  owner_user_id : String
  start_epoch_second : Int
  duration_second : Int
  mode : Option String
  is_public : Bool
  penalty_second : Int
deriving DecidableEq, Repr

/-- Struct `VirtualContestItem`: `id` is the `problem_id` column,
`point` is `user_defined_point`, `order` is `user_defined_order`. -/
structure VirtualContestItem where
  id : String
  point : Option Int
  order : Option Int
deriving DecidableEq, Repr

/-- Row of `internal_virtual_contest_items`. -/
structure ItemRow where
  internal_virtual_contest_id : String
  problem_id : String
  user_defined_point : Option Int
  user_defined_order : Option Int
deriving DecidableEq, Repr

/-- Row of `internal_virtual_contest_participants`. -/
structure ParticipantRow where
  internal_virtual_contest_id : String
  internal_user_id : String
deriving DecidableEq, Repr

/-- Row of `internal_users`: maps an internal identity to an optional
public AtCoder handle. -/
structure InternalUserRow where
  internal_user_id : String
  atcoder_user_id : Option String
deriving DecidableEq, Repr

/-- The database state: the four tables the manager touches. -/
structure Db where
  contests : List VirtualContestInfo
  items : List ItemRow
  participants : List ParticipantRow
  users : List InternalUserRow
deriving DecidableEq, Repr

/-- Constant `pub const MAX_PROBLEM_NUM_PER_CONTEST: usize = 300;`. -/
def MAX_PROBLEM_NUM_PER_CONTEST : Nat := 300

/-- Constant `pub const RECENT_CONTEST_NUM: i64 = 1000;`. -/
def RECENT_CONTEST_NUM : Int := 1000

/-! ### Sort keys

PostgreSQL `ORDER BY x ASC` places NULLs last, i.e. NULL compares as
larger than every non-NULL value: a NULL-able `BIGINT` key is a
`WithTop Int` and a NULL-able `VARCHAR` key is a `WithTop String`
(`Option` is definitionally `WithTop`). -/

/-- Sort key of `ORDER BY user_defined_order ASC, problem_id ASC`:
lexicographic on (order with NULLs last, problem_id). -/
def itemSortKey (x : VirtualContestItem) : Lex (WithTop Int × String) :=
  toLex ((x.order : WithTop Int), x.id)

/-- The row order produced by
`ORDER BY user_defined_order ASC, problem_id ASC` under PostgreSQL. -/
def itemLe (a b : VirtualContestItem) : Prop :=
  itemSortKey a ≤ itemSortKey b

instance : DecidableRel itemLe := fun a b =>
  inferInstanceAs (Decidable (itemSortKey a ≤ itemSortKey b))

instance : IsTotal VirtualContestItem itemLe :=
  ⟨fun a b => le_total (itemSortKey a) (itemSortKey b)⟩

instance : IsTrans VirtualContestItem itemLe :=
  ⟨fun _ _ _ hab hbc => le_trans hab hbc⟩

/-- The order claimed by the specification for
`get_single_contest_problems`: `order` ascending with NULLs *first*
(NULL smaller than every value), then `problem_id` ascending. -/
def itemLeNullsFirst (a b : VirtualContestItem) : Prop :=
  toLex ((a.order.elim ⊥ (fun v => (v : WithBot Int)) : WithBot Int), a.id) ≤
    toLex ((b.order.elim ⊥ (fun v => (v : WithBot Int)) : WithBot Int), b.id)

instance : DecidableRel itemLeNullsFirst := fun a b =>
  inferInstanceAs (Decidable
    (toLex ((a.order.elim ⊥ (fun v => (v : WithBot Int)) : WithBot Int), a.id) ≤
      toLex ((b.order.elim ⊥ (fun v => (v : WithBot Int)) : WithBot Int), b.id)))

/-- Sort key of `ORDER BY start_epoch_second + duration_second DESC`. -/
def contestEnd (c : VirtualContestInfo) : Int :=
  c.start_epoch_second + c.duration_second

/-- Descending order on contest end time. -/
def recentGe (a b : VirtualContestInfo) : Prop :=
  contestEnd b ≤ contestEnd a

instance : DecidableRel recentGe := fun a b =>
  inferInstanceAs (Decidable (contestEnd b ≤ contestEnd a))

instance : IsTotal VirtualContestInfo recentGe :=
  ⟨fun a b => (le_total (contestEnd b) (contestEnd a)).imp id id⟩

instance : IsTrans VirtualContestInfo recentGe :=
  ⟨fun _ _ _ hab hbc => le_trans hbc hab⟩

/-- A NULL-able `VARCHAR` sort key: NULL compares larger than every
string (PostgreSQL NULLs-last for ascending order). -/
def handleKey (a : Option String) : WithTop String :=
  a

/-- Row order of `ORDER BY b.atcoder_user_id ASC` on the NULL-able handle column
(NULLs last under PostgreSQL). -/
def handleLe (a b : Option String) : Prop :=
  handleKey a ≤ handleKey b

instance : DecidableRel handleLe := fun a b =>
  inferInstanceAs (Decidable (handleKey a ≤ handleKey b))

instance : IsTotal (Option String) handleLe :=
  ⟨fun a b => le_total (handleKey a) (handleKey b)⟩

instance : IsTrans (Option String) handleLe :=
  ⟨fun _ _ _ hab hbc => le_trans hab hbc⟩

/-! ### Read operations -/

/-- Operation `get_single_contest_info`: `SELECT ... WHERE id = $1` with
`fetch_one`; `none` models the `RowNotFound` error. -/
def get_single_contest_info (db : Db) (contest_id : String) :
    Option VirtualContestInfo :=
  (db.contests.filter (fun c => decide (c.id = contest_id))).head?

/-- Projection of an item row to the query result of
`SELECT problem_id, user_defined_point, user_defined_order`. -/
def rowToItem (r : ItemRow) : VirtualContestItem :=
  ⟨r.problem_id, r.user_defined_point, r.user_defined_order⟩

/-- Operation `get_single_contest_problems`: items of the contest ordered by
`user_defined_order ASC, problem_id ASC` (PostgreSQL: NULLs last). -/
def get_single_contest_problems (db : Db) (contest_id : String) :
    List VirtualContestItem :=
  List.insertionSort itemLe
    ((db.items.filter
        (fun r => decide (r.internal_virtual_contest_id = contest_id))).map
      rowToItem)

/-- Operation `get_recent_contest_info`: public contests ordered by
`start_epoch_second + duration_second DESC`, `LIMIT 1000`. -/
def get_recent_contest_info (db : Db) : List VirtualContestInfo :=
  (List.insertionSort recentGe
      (db.contests.filter (fun c => c.is_public))).take
    RECENT_CONTEST_NUM.toNat

/-- Operation `get_running_contest_problems`: items joined to their contest,
filtered by `b.start_epoch_second <= $1 AND
b.start_epoch_second + b.duration_second >= $1`, each paired with the
end second of the contest.  The `LEFT JOIN` behaves as an inner join because
the `WHERE` predicate rejects NULL rows. -/
def get_running_contest_problems (db : Db) (time : Int) :
    List (String × Int) :=
  db.items.flatMap (fun a =>
    (db.contests.filter (fun b =>
        decide (a.internal_virtual_contest_id = b.id ∧
          b.start_epoch_second ≤ time ∧
          time ≤ b.start_epoch_second + b.duration_second))).map
      (fun b => (a.problem_id, b.start_epoch_second + b.duration_second)))

/-- One step of the `LEFT JOIN internal_users`: a participant row joined
to every matching user row, or to a NULL handle when no user matches. -/
def leftJoinUser (db : Db) (a : ParticipantRow) : List (Option String) :=
  let matching :=
    db.users.filter (fun b => decide (a.internal_user_id = b.internal_user_id))
  if matching.isEmpty then [none] else matching.map (·.atcoder_user_id)

/-- Operation `get_single_contest_participants`: participants of the contest left
joined to `internal_users`, NULL handles removed by
`WHERE b.atcoder_user_id IS NOT NULL`, ordered by handle ascending, and
the `Option` layer flattened (`.flatten()` in Rust). -/
def get_single_contest_participants (db : Db) (contest_id : String) :
    List String :=
  (List.insertionSort handleLe
      (((db.participants.filter
            (fun p => decide (p.internal_virtual_contest_id = contest_id))).flatMap
          (leftJoinUser db)).filter
        (fun h => h.isSome))).filterMap id

/-! ### Write operations -/

/-- Operation `create_contest`: `Uuid::new_v4()` is an external random draw, so the
generated identifier is passed in as the `uuid` argument; the row is
inserted and the identifier returned. -/
def create_contest (db : Db) (uuid : String) (title memo internal_user_id : String)
    (start_epoch_second duration_second : Int) (mode : Option String)
    (is_public : Bool) (penalty_second : Int) : String × Db :=
  (uuid,
    { db with
        contests := db.contests ++
          [⟨uuid, title, memo, internal_user_id, start_epoch_second,
            duration_second, mode, is_public, penalty_second⟩] })

/-- Effect of the `UPDATE ... SET ... WHERE id = $8` statement of `update_contest` on a
single row: every column in the `SET` list is overwritten when the `id`
matches; `id` and `internal_user_id` are not in the `SET` list. -/
def updateContestRow (id title memo : String)
    (start_epoch_second duration_second : Int) (mode : Option String)
    (is_public : Bool) (penalty_second : Int) (c : VirtualContestInfo) :
    VirtualContestInfo :=
  if c.id = id then
    { c with
        title := title, memo := memo,
        start_epoch_second := start_epoch_second,
        duration_second := duration_second, mode := mode,
        is_public := is_public, penalty_second := penalty_second }
  else c

/-- Operation `update_contest`: the `UPDATE` statement applied to every contest
row; matching zero rows is not an error. -/
def update_contest (db : Db) (id title memo : String)
    (start_epoch_second duration_second : Int) (mode : Option String)
    (is_public : Bool) (penalty_second : Int) : Db :=
  { db with
      contests := db.contests.map
        (updateContestRow id title memo start_epoch_second duration_second
          mode is_public penalty_second) }

/-- Operation `join_contest`: unconditional `INSERT` of a participation edge. -/
def join_contest (db : Db) (contest_id internal_user_id : String) : Db :=
  { db with participants := db.participants ++ [⟨contest_id, internal_user_id⟩] }

/-- Operation `leave_contest`: `DELETE` of every row matching both keys. -/
def leave_contest (db : Db) (contest_id internal_user_id : String) : Db :=
  { db with
      participants := db.participants.filter (fun p =>
        decide (¬(p.internal_virtual_contest_id = contest_id ∧
          p.internal_user_id = internal_user_id))) }

/-- Error outcomes of `update_items` (`anyhow::Result` in the source):
the `ensure!` size failure, the `fetch_one` ownership failure, and any
storage-level statement failure. -/
inductive UpdateItemsError where
  | limitExceeded
  | permissionDenied
  | storageError
deriving DecidableEq, Repr

/-- The storage statements `update_items` can issue, in source order. -/
inductive SqlStmt where
  | selectContest
  | beginTx
  | deleteItems
  | insertItems
  | commitTx
deriving DecidableEq, Repr

/-- Failure oracle for `update_items`: which of its storage statements
fail (every `.await?` in the source can surface a storage error). -/
structure FailureOracle where
  failSelect : Bool
  failBegin : Bool
  failDelete : Bool
  failInsert : Bool
  failCommit : Bool
deriving DecidableEq, Repr

/-- The oracle under which no statement fails. -/
def noFailure : FailureOracle :=
  ⟨false, false, false, false, false⟩

/-- The item row inserted for contest `cid` by the bulk `UNNEST` insert
(the source builds four parallel arrays in list order). -/
def itemToRow (cid : String) (p : VirtualContestItem) : ItemRow :=
  ⟨cid, p.id, p.point, p.order⟩

/-- Operation `update_items`, returning the result together with the trace of
storage statements issued.  Structure mirrors the source:
1. `ensure!(problems.len() <= MAX_PROBLEM_NUM_PER_CONTEST)`;
2. ownership `SELECT ... WHERE internal_user_id = $1 AND id = $2` with
   `fetch_one` (`permissionDenied` when no row matches);
3. a transaction: `DELETE` the item rows of the contest, bulk-`INSERT` the
   new list, `COMMIT`.  A failure after `begin` drops the transaction,
   so the stored state stays the `db` of the caller (rollback). -/
def update_items (db : Db) (contest_id : String)
    (problems : List VirtualContestItem) (user_id : String)
    (fx : FailureOracle) : Except UpdateItemsError Db × List SqlStmt :=
  if ¬ problems.length ≤ MAX_PROBLEM_NUM_PER_CONTEST then
    (.error .limitExceeded, [])
  else if fx.failSelect then
    (.error .storageError, [.selectContest])
  else match (db.contests.filter (fun c =>
      decide (c.owner_user_id = user_id ∧ c.id = contest_id))).head? with
  | none => (.error .permissionDenied, [.selectContest])
  | some _ =>
    if fx.failBegin then
      (.error .storageError, [.selectContest, .beginTx])
    else if fx.failDelete then
      (.error .storageError, [.selectContest, .beginTx, .deleteItems])
    else if fx.failInsert then
      (.error .storageError, [.selectContest, .beginTx, .deleteItems, .insertItems])
    else if fx.failCommit then
      (.error .storageError,
        [.selectContest, .beginTx, .deleteItems, .insertItems, .commitTx])
    else
      (.ok
        { db with
            items :=
              (db.items.filter (fun r =>
                decide (¬ r.internal_virtual_contest_id = contest_id))) ++
                problems.map (itemToRow contest_id) },
        [.selectContest, .beginTx, .deleteItems, .insertItems, .commitTx])

/-- The externally visible database after a call returning `r`: the new
state on success, the unchanged state of the caller on error (an `anyhow`
error carries no state; an uncommitted transaction is rolled back). -/
def storeAfter (db : Db) (r : Except UpdateItemsError Db) : Db :=
  match r with
  | .ok db' => db'
  | .error _ => db

/-! ### Concrete sample data for witnesses -/

/-- A contest owned by `alice`, public, window `[1000, 1500]`. -/
def sampleContest1 : VirtualContestInfo :=
  ⟨"c1", "T", "M", "alice", 1000, 500, none, true, 300⟩

/-- A contest owned by `bob`, private, window `[100, 150]`. -/
def sampleContest2 : VirtualContestInfo :=
  ⟨"c2", "U", "N", "bob", 100, 50, some "lockout", false, 0⟩

/-- A small database exercising every table. -/
def sampleDb : Db :=
  { contests := [sampleContest1, sampleContest2],
    items := [⟨"c1", "p1", none, none⟩, ⟨"c1", "p2", some 5, some 1⟩,
      ⟨"c2", "q1", none, some 2⟩],
    participants := [⟨"c1", "u1"⟩, ⟨"c1", "u2"⟩, ⟨"c1", "u3"⟩],
    users := [⟨"u1", some "zed"⟩, ⟨"u2", some "amy"⟩, ⟨"u3", none⟩] }

/-! ### Shared lemmas about `update_items` -/

/-- An oversized list makes `update_items` fail with `limitExceeded`
issuing no storage statement, whatever the database, the acting user and
the failure oracle. -/
theorem update_items_gt_limit (db : Db) (cid : String)
    (problems : List VirtualContestItem) (uid : String) (fx : FailureOracle)
    (hlen : MAX_PROBLEM_NUM_PER_CONTEST < problems.length) :
    update_items db cid problems uid fx =
      (.error UpdateItemsError.limitExceeded, []) := by
  unfold update_items
  rw [if_pos (not_le.2 hlen)]

/-- A list within the size cap never produces `limitExceeded`. -/
theorem update_items_le_limit (db : Db) (cid : String)
    (problems : List VirtualContestItem) (uid : String) (fx : FailureOracle)
    (hlen : problems.length ≤ MAX_PROBLEM_NUM_PER_CONTEST) :
    (update_items db cid problems uid fx).1 ≠
      Except.error UpdateItemsError.limitExceeded := by
  intro habs
  unfold update_items at habs
  rw [if_neg (not_not_intro hlen)] at habs
  generalize (db.contests.filter (fun c =>
      decide (c.owner_user_id = uid ∧ c.id = cid))).head? = q at habs
  rcases fx with ⟨s, b, d, i, co⟩
  rcases q with _ | r <;>
    cases s <;> cases b <;> cases d <;> cases i <;> cases co <;>
      simp at habs

/-- C1: when the size and ownership checks of `update_items` pass, the
delete of the existing item rows of the contest and the bulk insert of the
new list run between `BEGIN` and `COMMIT` of one transaction, and the
call either commits the whole replacement or fails with a storage error
leaving the stored state exactly as it was — no partially-replaced set
is ever externally visible. -/
theorem update_items_atomic (db : Db) (cid : String)
    (problems : List VirtualContestItem) (uid : String) (fx : FailureOracle)
    (hlen : problems.length ≤ MAX_PROBLEM_NUM_PER_CONTEST)
    (hown : ∃ c ∈ db.contests, c.owner_user_id = uid ∧ c.id = cid) :
    (update_items db cid problems uid fx =
        (.ok { db with items := (db.items.filter (fun r =>
            decide (¬ r.internal_virtual_contest_id = cid))) ++
              problems.map (itemToRow cid) },
          [.selectContest, .beginTx, .deleteItems, .insertItems, .commitTx]) ∧
      storeAfter db (update_items db cid problems uid fx).1 =
        { db with items := (db.items.filter (fun r =>
            decide (¬ r.internal_virtual_contest_id = cid))) ++
              problems.map (itemToRow cid) }) ∨
    ((update_items db cid problems uid fx).1 =
        Except.error UpdateItemsError.storageError ∧
      storeAfter db (update_items db cid problems uid fx).1 = db) := by
  obtain ⟨c, hc, h1, h2⟩ := hown
  have hmem : c ∈ db.contests.filter (fun c =>
      decide (c.owner_user_id = uid ∧ c.id = cid)) :=
    List.mem_filter.2 ⟨hc, by simp [h1, h2]⟩
  unfold update_items
  rw [if_neg (not_not_intro hlen)]
  generalize hq : (db.contests.filter (fun c =>
      decide (c.owner_user_id = uid ∧ c.id = cid))).head? = q
  rcases q with _ | r
  · rw [List.head?_eq_none_iff] at hq
    rw [hq] at hmem
    cases hmem
  · rcases fx with ⟨s, b, d, i, co⟩
    cases s <;> cases b <;> cases d <;> cases i <;> cases co <;>
      simp [storeAfter]

/-- C1 witness: a committed call on the sample database. -/
theorem update_items_atomic_witness :
    (update_items sampleDb "c1" [⟨"p9", some 100, some 1⟩] "alice" noFailure =
        (.ok { sampleDb with items := (sampleDb.items.filter (fun r =>
            decide (¬ r.internal_virtual_contest_id = "c1"))) ++
              [(⟨"p9", some 100, some 1⟩ : VirtualContestItem)].map (itemToRow "c1") },
          [.selectContest, .beginTx, .deleteItems, .insertItems, .commitTx]) ∧
      storeAfter sampleDb
          (update_items sampleDb "c1" [⟨"p9", some 100, some 1⟩] "alice" noFailure).1 =
        { sampleDb with items := (sampleDb.items.filter (fun r =>
            decide (¬ r.internal_virtual_contest_id = "c1"))) ++
              [(⟨"p9", some 100, some 1⟩ : VirtualContestItem)].map (itemToRow "c1") }) ∨
    ((update_items sampleDb "c1" [⟨"p9", some 100, some 1⟩] "alice" noFailure).1 =
        Except.error UpdateItemsError.storageError ∧
      storeAfter sampleDb
          (update_items sampleDb "c1" [⟨"p9", some 100, some 1⟩] "alice" noFailure).1 =
        sampleDb) :=
  update_items_atomic sampleDb "c1" [⟨"p9", some 100, some 1⟩] "alice" noFailure
    (by decide) (by decide)

/-- C2: `update_items` fails with `limitExceeded` precisely when the
list exceeds 300 entries; in that case no storage statement is issued
and the stored state — in particular the existing item set of the contest —
is unchanged.  Any list of length at most 300 passes the size check. -/
theorem update_items_size_cap (db : Db) (cid : String)
    (problems : List VirtualContestItem) (uid : String) (fx : FailureOracle) :
    ((update_items db cid problems uid fx).1 =
        Except.error UpdateItemsError.limitExceeded ↔
      MAX_PROBLEM_NUM_PER_CONTEST < problems.length) ∧
    (MAX_PROBLEM_NUM_PER_CONTEST < problems.length →
      update_items db cid problems uid fx =
        (.error UpdateItemsError.limitExceeded, []) ∧
      storeAfter db (update_items db cid problems uid fx).1 = db) := by
  by_cases h : problems.length ≤ MAX_PROBLEM_NUM_PER_CONTEST
  · exact ⟨⟨fun habs => absurd habs (update_items_le_limit db cid problems uid fx h),
      fun hlt => absurd h (not_le.2 hlt)⟩,
      fun hlt => absurd h (not_le.2 hlt)⟩
  · have hlt := not_le.1 h
    have heq := update_items_gt_limit db cid problems uid fx hlt
    refine ⟨⟨fun _ => hlt, fun _ => ?_⟩, fun _ => ⟨heq, ?_⟩⟩ <;>
      simp [heq, storeAfter]

/-- C2 witness: a 301-entry list is rejected with the database intact. -/
theorem update_items_size_cap_witness :
    update_items sampleDb "c1"
        (List.replicate 301 ⟨"p", none, none⟩) "alice" noFailure =
      (.error UpdateItemsError.limitExceeded, []) ∧
    storeAfter sampleDb
        (update_items sampleDb "c1"
          (List.replicate 301 ⟨"p", none, none⟩) "alice" noFailure).1 =
      sampleDb :=
  (update_items_size_cap sampleDb "c1"
      (List.replicate 301 ⟨"p", none, none⟩) "alice" noFailure).2
    (by rw [List.length_replicate]; norm_num [MAX_PROBLEM_NUM_PER_CONTEST])

/-- C3: when no contest row matches both the contest id and the acting
user as owner, `update_items` fails with `permissionDenied`; the only
storage statement issued is the ownership `SELECT` (no mutation), and
the stored state is unchanged. -/
theorem update_items_permission_denied (db : Db) (cid : String)
    (problems : List VirtualContestItem) (uid : String) (fx : FailureOracle)
    (hlen : problems.length ≤ MAX_PROBLEM_NUM_PER_CONTEST)
    (hown : ∀ c ∈ db.contests, ¬(c.owner_user_id = uid ∧ c.id = cid))
    (hsel : fx.failSelect = false) :
    update_items db cid problems uid fx =
      (.error UpdateItemsError.permissionDenied, [.selectContest]) ∧
    storeAfter db (update_items db cid problems uid fx).1 = db := by
  have hnil : db.contests.filter (fun c =>
      decide (c.owner_user_id = uid ∧ c.id = cid)) = [] :=
    List.filter_eq_nil_iff.2 (by simpa using hown)
  unfold update_items
  rw [if_neg (not_not_intro hlen), hnil]
  constructor <;> simp [hsel, storeAfter]

/-- C3 witness: a non-owner is rejected on the sample database. -/
theorem update_items_permission_denied_witness :
    update_items sampleDb "c1" [⟨"p9", none, none⟩] "mallory" noFailure =
      (.error UpdateItemsError.permissionDenied, [.selectContest]) ∧
    storeAfter sampleDb
        (update_items sampleDb "c1" [⟨"p9", none, none⟩] "mallory" noFailure).1 =
      sampleDb :=
  update_items_permission_denied sampleDb "c1" [⟨"p9", none, none⟩] "mallory"
    noFailure (by decide) (by decide) rfl

/-- C10: the size cap is checked before the ownership query — an
oversized list yields `limitExceeded` with an empty statement trace for
every database, acting user and failure oracle, so no storage statement
is executed even when the caller is not the owner or the contest does
not exist. -/
theorem update_items_size_check_first (db : Db) (cid : String)
    (problems : List VirtualContestItem) (uid : String) (fx : FailureOracle)
    (hlen : MAX_PROBLEM_NUM_PER_CONTEST < problems.length) :
    update_items db cid problems uid fx =
      (.error UpdateItemsError.limitExceeded, []) :=
  update_items_gt_limit db cid problems uid fx hlen

/-- C10 witness: a non-owner with a failing `SELECT` oracle still gets
`limitExceeded` and an empty trace. -/
theorem update_items_size_check_first_witness :
    update_items sampleDb "c1"
        (List.replicate 301 ⟨"p", none, none⟩) "mallory"
        ⟨true, true, true, true, true⟩ =
      (.error UpdateItemsError.limitExceeded, []) :=
  update_items_size_check_first sampleDb "c1"
    (List.replicate 301 ⟨"p", none, none⟩) "mallory"
    ⟨true, true, true, true, true⟩
    (by rw [List.length_replicate]; norm_num [MAX_PROBLEM_NUM_PER_CONTEST])

/-- C4 (amended): `get_single_contest_problems` returns exactly the
items of the contest — a permutation of the rows matching the contest id —
sorted by `order` ascending with NULL orders sorted *last* (the
PostgreSQL default for `ASC`), then `problem_id` ascending. -/
theorem single_contest_problems_sorted (db : Db) (cid : String) :
    List.Sorted itemLe (get_single_contest_problems db cid) ∧
    (get_single_contest_problems db cid).Perm
      ((db.items.filter
          (fun r => decide (r.internal_virtual_contest_id = cid))).map
        rowToItem) :=
  ⟨List.sorted_insertionSort itemLe _, List.perm_insertionSort itemLe _⟩

/-- C4 counterexample: contest `c1` of the sample database holds an item
with NULL `order` (`p1`) and one with `order = 1` (`p2`).  The code
returns `[p2, p1]` — NULL orders last — which is not sorted in the
claimed NULLs-first order; that order would demand `[p1, p2]`. -/
theorem single_contest_problems_nulls_first_counterexample :
    get_single_contest_problems sampleDb "c1" =
      [⟨"p2", some 5, some 1⟩, ⟨"p1", none, none⟩] ∧
    ¬ List.Sorted itemLeNullsFirst (get_single_contest_problems sampleDb "c1") ∧
    List.Sorted itemLeNullsFirst
      [(⟨"p1", none, none⟩ : VirtualContestItem), ⟨"p2", some 5, some 1⟩] := by
  refine ⟨by decide, by decide, by decide⟩

/-- C5: `get_running_contest_problems t` contains a pair exactly when it
is an item of a contest whose window `[start, start + duration]`
contains `t` — both bounds inclusive — paired with the end
second. -/
theorem running_contest_problems_window (db : Db) (t : Int) (x : String × Int) :
    x ∈ get_running_contest_problems db t ↔
      ∃ a ∈ db.items, ∃ b ∈ db.contests,
        a.internal_virtual_contest_id = b.id ∧
        b.start_epoch_second ≤ t ∧
        t ≤ b.start_epoch_second + b.duration_second ∧
        x = (a.problem_id, b.start_epoch_second + b.duration_second) := by
  simp only [get_running_contest_problems, List.mem_flatMap, List.mem_map,
    List.mem_filter, decide_eq_true_eq]
  constructor
  · rintro ⟨a, ha, b, ⟨hb, h1, h2, h3⟩, rfl⟩
    exact ⟨a, ha, b, hb, h1, h2, h3, rfl⟩
  · rintro ⟨a, ha, b, hb, h1, h2, h3, rfl⟩
    exact ⟨a, ha, b, ⟨hb, h1, h2, h3⟩, rfl⟩

/-- C8: `update_contest` touches only the contests table; every row
whose `id` differs is kept as is; a row whose `id` matches is rewritten
with the new title, memo, start, duration, mode, visibility and penalty
while keeping its `id` and `owner_user_id`; and when no row matches the
call is a silent no-op returning an unchanged database. -/
theorem update_contest_frame (db : Db) (id title memo : String)
    (start dur : Int) (mode : Option String) (pub : Bool) (pen : Int) :
    (update_contest db id title memo start dur mode pub pen).items = db.items ∧
    (update_contest db id title memo start dur mode pub pen).participants =
      db.participants ∧
    (update_contest db id title memo start dur mode pub pen).users = db.users ∧
    (update_contest db id title memo start dur mode pub pen).contests.length =
      db.contests.length ∧
    (∀ c ∈ db.contests, ¬c.id = id →
      c ∈ (update_contest db id title memo start dur mode pub pen).contests) ∧
    (∀ c ∈ db.contests, c.id = id →
      ({ id := c.id, title := title, memo := memo,
         owner_user_id := c.owner_user_id, start_epoch_second := start,
         duration_second := dur, mode := mode, is_public := pub,
         penalty_second := pen } : VirtualContestInfo) ∈
        (update_contest db id title memo start dur mode pub pen).contests) ∧
    ((∀ c ∈ db.contests, ¬c.id = id) →
      update_contest db id title memo start dur mode pub pen = db) := by
  refine ⟨rfl, rfl, rfl, by simp [update_contest], ?_, ?_, ?_⟩
  · intro c hc hne
    exact List.mem_map.2 ⟨c, hc, by simp [updateContestRow, hne]⟩
  · intro c hc heq
    refine List.mem_map.2 ⟨c, hc, ?_⟩
    simp [updateContestRow, heq]
  · intro h
    have hmap : db.contests.map
        (updateContestRow id title memo start dur mode pub pen) =
          db.contests := by
      have h2 : db.contests.map
          (updateContestRow id title memo start dur mode pub pen) =
            db.contests.map (fun c => c) :=
        List.map_congr_left (fun c hc => by simp [updateContestRow, h c hc])
      simpa using h2
    simp only [update_contest]
    rw [hmap]

/-- C8 witness: updating contest `c1` of the sample database rewrites
its mutable fields, keeps owner `alice`, and leaves items untouched;
updating an absent id is a no-op. -/
theorem update_contest_frame_witness :
    ({ id := "c1", title := "T2", memo := "M2", owner_user_id := "alice",
       start_epoch_second := 7, duration_second := 8, mode := some "m",
       is_public := false, penalty_second := 9 } : VirtualContestInfo) ∈
      (update_contest sampleDb "c1" "T2" "M2" 7 8 (some "m") false 9).contests ∧
    (update_contest sampleDb "c1" "T2" "M2" 7 8 (some "m") false 9).items =
      sampleDb.items ∧
    update_contest sampleDb "zzz" "T2" "M2" 7 8 (some "m") false 9 = sampleDb :=
  ⟨(update_contest_frame sampleDb "c1" "T2" "M2" 7 8 (some "m") false
        9).2.2.2.2.2.1 sampleContest1 (by decide) (by decide),
    (update_contest_frame sampleDb "c1" "T2" "M2" 7 8 (some "m") false 9).1,
    (update_contest_frame sampleDb "zzz" "T2" "M2" 7 8 (some "m") false
        9).2.2.2.2.2.2 (by decide)⟩

/-- C9: with a fresh identifier drawn for `Uuid::new_v4()` (one not
already used by a contest row, which v4 collision-freeness provides),
`create_contest` returns that identifier — never previously stored —
inserts the row, and `get_single_contest_info` on the returned
identifier yields exactly the inserted fields. -/
theorem create_contest_roundtrip (db : Db) (uuid title memo owner : String)
    (start dur : Int) (mode : Option String) (pub : Bool) (pen : Int)
    (hfresh : ∀ c ∈ db.contests, ¬c.id = uuid) :
    (create_contest db uuid title memo owner start dur mode pub pen).1 = uuid ∧
    uuid ∉ db.contests.map VirtualContestInfo.id ∧
    get_single_contest_info
        (create_contest db uuid title memo owner start dur mode pub pen).2
        uuid =
      some ⟨uuid, title, memo, owner, start, dur, mode, pub, pen⟩ := by
  refine ⟨rfl, ?_, ?_⟩
  · simp only [List.mem_map]
    rintro ⟨c, hc, hid⟩
    exact hfresh c hc hid
  · have hnil : db.contests.filter (fun c => decide (c.id = uuid)) = [] :=
      List.filter_eq_nil_iff.2 (by simpa using hfresh)
    simp [get_single_contest_info, create_contest, List.filter_append, hnil]

/-- C9 witness: creating a contest with fresh id `c9` on the sample
database and reading it back. -/
theorem create_contest_roundtrip_witness :
    (create_contest sampleDb "c9" "t" "m" "alice" 1 2 none true 3).1 = "c9" ∧
    "c9" ∉ sampleDb.contests.map VirtualContestInfo.id ∧
    get_single_contest_info
        (create_contest sampleDb "c9" "t" "m" "alice" 1 2 none true 3).2
        "c9" =
      some ⟨"c9", "t", "m", "alice", 1, 2, none, true, 3⟩ :=
  create_contest_roundtrip sampleDb "c9" "t" "m" "alice" 1 2 none true 3
    (by decide)

/-- C6: `get_recent_contest_info` returns only rows of the contests
table with `is_public = true`, at most 1000 of them, ordered by end time
(`start + duration`) descending, and every public contest left out ends
no later than every contest returned (the returned ones are the most
recent by end time). -/
theorem recent_contest_info_spec (db : Db) :
    (∀ c ∈ get_recent_contest_info db, c.is_public = true) ∧
    (∀ c ∈ get_recent_contest_info db, c ∈ db.contests) ∧
    (get_recent_contest_info db).length ≤ 1000 ∧
    List.Sorted recentGe (get_recent_contest_info db) ∧
    (∀ c ∈ db.contests, c.is_public = true →
      c ∉ get_recent_contest_info db →
      ∀ d ∈ get_recent_contest_info db, contestEnd c ≤ contestEnd d) := by
  have hsorted : List.Sorted recentGe
      (List.insertionSort recentGe (db.contests.filter (fun c => c.is_public))) :=
    List.sorted_insertionSort recentGe _
  have hperm := List.perm_insertionSort recentGe
    (db.contests.filter (fun c => c.is_public))
  have hmem_l : ∀ c, c ∈ List.insertionSort recentGe
      (db.contests.filter (fun c => c.is_public)) ↔
        c ∈ db.contests ∧ c.is_public = true := by
    intro c
    rw [hperm.mem_iff, List.mem_filter]
  have htake : ∀ c ∈ get_recent_contest_info db,
      c ∈ List.insertionSort recentGe
        (db.contests.filter (fun c => c.is_public)) := by
    intro c hc
    exact List.mem_of_mem_take hc
  refine ⟨?_, ?_, ?_, ?_, ?_⟩
  · intro c hc
    exact ((hmem_l c).1 (htake c hc)).2
  · intro c hc
    exact ((hmem_l c).1 (htake c hc)).1
  · have h1000 : RECENT_CONTEST_NUM.toNat = 1000 := rfl
    simp only [get_recent_contest_info, h1000]
    exact List.length_take_le 1000
      (List.insertionSort recentGe (db.contests.filter (fun c => c.is_public)))
  · exact List.Pairwise.sublist (List.take_sublist _ _) hsorted
  · intro c hc hpub hnot d hd
    have hcl : c ∈ List.insertionSort recentGe
        (db.contests.filter (fun c => c.is_public)) :=
      (hmem_l c).2 ⟨hc, hpub⟩
    simp only [get_recent_contest_info] at hnot hd
    rw [← List.take_append_drop RECENT_CONTEST_NUM.toNat
      (List.insertionSort recentGe (db.contests.filter (fun c => c.is_public)))]
      at hcl
    have hcdrop : c ∈ List.drop RECENT_CONTEST_NUM.toNat
        (List.insertionSort recentGe
          (db.contests.filter (fun c => c.is_public))) := by
      rcases List.mem_append.1 hcl with h | h
      · exact absurd h hnot
      · exact h
    have hpw := hsorted
    rw [← List.take_append_drop RECENT_CONTEST_NUM.toNat
      (List.insertionSort recentGe (db.contests.filter (fun c => c.is_public)))]
      at hpw
    exact (List.pairwise_append.1 hpw).2.2 d hd c hcdrop

/-- C6 witness: on the sample database, the returned contest is public
and the result respects the 1000-row cap. -/
theorem recent_contest_info_spec_witness :
    sampleContest1.is_public = true ∧
    (get_recent_contest_info sampleDb).length ≤ 1000 :=
  ⟨(recent_contest_info_spec sampleDb).1 sampleContest1 (by decide),
    (recent_contest_info_spec sampleDb).2.2.1⟩

/-- A handle `some x` comes out of the `LEFT JOIN` step exactly when
some user row carries the internal identity of the participant and the
public handle `x`. -/
theorem mem_leftJoinUser (db : Db) (a : ParticipantRow) (x : String) :
    some x ∈ leftJoinUser db a ↔
      ∃ u ∈ db.users, a.internal_user_id = u.internal_user_id ∧
        u.atcoder_user_id = some x := by
  unfold leftJoinUser
  by_cases h : (db.users.filter (fun b =>
      decide (a.internal_user_id = b.internal_user_id))).isEmpty
  · rw [if_pos h]
    rw [List.isEmpty_iff] at h
    simp only [List.mem_singleton]
    constructor
    · intro habs
      cases habs
    · rintro ⟨u, hu, h1, h2⟩
      have hmem : u ∈ db.users.filter (fun b =>
          decide (a.internal_user_id = b.internal_user_id)) :=
        List.mem_filter.2 ⟨hu, by simp [h1]⟩
      rw [h] at hmem
      cases hmem
  · rw [if_neg h]
    simp only [List.mem_map, List.mem_filter, decide_eq_true_eq]
    constructor
    · rintro ⟨u, ⟨hu, h1⟩, h2⟩
      exact ⟨u, hu, h1, h2⟩
    · rintro ⟨u, hu, h1, h2⟩
      exact ⟨u, ⟨hu, h1⟩, h2⟩

/-- C7: `get_single_contest_participants` returns handles sorted
ascending alphabetically, and a handle is returned exactly when some
participant of the contest resolves through `internal_users` to that
public handle — participants with no public handle are excluded. -/
theorem single_contest_participants_spec (db : Db) (cid : String) :
    List.Sorted (fun a b : String => a ≤ b)
      (get_single_contest_participants db cid) ∧
    ∀ x : String, (x ∈ get_single_contest_participants db cid ↔
      ∃ p ∈ db.participants, p.internal_virtual_contest_id = cid ∧
        ∃ u ∈ db.users, p.internal_user_id = u.internal_user_id ∧
          u.atcoder_user_id = some x) := by
  constructor
  · have hs : List.Sorted handleLe
        (List.insertionSort handleLe
          (((db.participants.filter (fun p =>
              decide (p.internal_virtual_contest_id = cid))).flatMap
            (leftJoinUser db)).filter (fun h => h.isSome))) :=
      List.sorted_insertionSort handleLe _
    unfold get_single_contest_participants
    refine List.pairwise_filterMap.2 (hs.imp ?_)
    intro o o' h b hb b' hb'
    simp only [id_eq, Option.mem_def] at hb hb'
    subst hb
    subst hb'
    exact WithTop.coe_le_coe.1 h
  · intro x
    unfold get_single_contest_participants
    simp only [List.mem_filterMap, id_eq, exists_eq_right]
    rw [(List.perm_insertionSort handleLe _).mem_iff]
    simp only [List.mem_filter, List.mem_flatMap, mem_leftJoinUser,
      decide_eq_true_eq, Option.isSome_some, and_true]
    constructor
    · rintro ⟨p, ⟨hp, hcid⟩, u, hu, h1, h2⟩
      exact ⟨p, hp, hcid, u, hu, h1, h2⟩
    · rintro ⟨p, hp, hcid, u, hu, h1, h2⟩
      exact ⟨p, ⟨hp, hcid⟩, u, hu, h1, h2⟩

/-- C7 witness: on the sample database, participant `u2` of `c1`
resolves to handle `amy`, which appears in the sorted result. -/
theorem single_contest_participants_spec_witness :
    "amy" ∈ get_single_contest_participants sampleDb "c1" ∧
    List.Sorted (fun a b : String => a ≤ b)
      (get_single_contest_participants sampleDb "c1") := by
  constructor
  · exact ((single_contest_participants_spec sampleDb "c1").2 "amy").2
      ⟨⟨"c1", "u2"⟩, by decide, rfl, ⟨"u2", some "amy"⟩, by decide, rfl, rfl⟩
  · exact (single_contest_participants_spec sampleDb "c1").1

end VCM
